import Mathlib

/-!
Shallow embedding of the `dtc` command line tool (src/main.rs).

The program parses a date/time string with chrono, resolves its trailing
timezone token, and converts the result into a destination timezone.
Strings are modelled as their character lists; chrono's strftime parsing is
embedded at the character level for exactly the format items the program
uses (`%Y %m %d %H %M %S`, literals, whitespace, and the timezone items
`%#z`, `%:z`, `%::z`, `%Z`).  The IANA timezone catalog consumed by
`build_timezone_db` is an external data source, so it is a parameter: a
zone is its identifier together with its abbreviation and UTC offset as
functions of the evaluation instant.  Leap seconds (second = 60) and
sub-second precision are not modelled; no input in this development uses
them.  A Rust `panic!` (from `.unwrap()` on `Err`) is modelled by an
explicit `panicked` outcome.
-/

namespace Dtc

/-- ASCII whitespace, as recognized by Rust `char::is_whitespace` and
chrono's parser on the ASCII range: space and the 0x09..0x0D controls. -/
def isWs (c : Char) : Bool := decide (c.toNat = 32 ∨ (9 ≤ c.toNat ∧ c.toNat ≤ 13))

/-- ASCII digit test. -/
def isDigitC (c : Char) : Bool := decide (48 ≤ c.toNat ∧ c.toNat ≤ 57)

/-- Numeric value of an ASCII digit character. -/
def digitVal (c : Char) : Nat := c.toNat - 48

/-- The ASCII digit character for `d` (meaningful for `d ≤ 9`). -/
def dc (d : Nat) : Char := Char.ofNat (48 + d)

/-- Drop leading whitespace, as Rust `str::trim_start`. -/
def trimStart : List Char → List Char
  | [] => []
  | c :: cs => if isWs c then trimStart cs else c :: cs

/-- Drop trailing whitespace, as Rust `str::trim_end`. -/
def trimEnd (cs : List Char) : List Char := (trimStart cs.reverse).reverse

/-- Rust `str::trim`: drop whitespace from both ends. -/
def trimBoth (cs : List Char) : List Char := trimEnd (trimStart cs)

/-- ASCII uppercase of one character (`str::to_uppercase` on ASCII input). -/
def toUpperC (c : Char) : Char :=
  if 97 ≤ c.toNat ∧ c.toNat ≤ 122 then Char.ofNat (c.toNat - 32) else c

/-- ASCII lowercase of one character (`str::to_lowercase` on ASCII input). -/
def toLowerC (c : Char) : Char :=
  if 65 ≤ c.toNat ∧ c.toNat ≤ 90 then Char.ofNat (c.toNat + 32) else c

/-- `String::to_lowercase` on ASCII input. -/
def strToLower (s : String) : String := ⟨s.data.map toLowerC⟩

/-- Greedy digit scan of at most `w` further characters: accumulated value,
number of digits consumed, rest.  Embeds chrono `scan::number`'s loop. -/
def takeDigits (w acc cnt : Nat) : List Char → Nat × Nat × List Char
  | [] => (acc, cnt, [])
  | c :: cs =>
    if w = 0 then (acc, cnt, c :: cs)
    else if isDigitC c then takeDigits (w - 1) (10 * acc + digitVal c) (cnt + 1) cs
    else (acc, cnt, c :: cs)

/-- chrono `scan::number(s, 1, maxw)`: greedy, at most `maxw` digits, at
least one digit required. -/
def parseNum (maxw : Nat) (cs : List Char) : Option (Nat × List Char) :=
  if (takeDigits maxw 0 0 cs).2.1 = 0 then none
  else some ((takeDigits maxw 0 0 cs).1, (takeDigits maxw 0 0 cs).2.2)

/-- chrono `scan::number(s, 1, usize::MAX)`: greedy without a width bound. -/
def parseNumUnb (cs : List Char) : Option (Nat × List Char) := parseNum cs.length cs

/-- Two-digit zero-padded decimal rendering (chrono `Pad::Zero`, width 2). -/
def pad2 (x : Nat) : List Char :=
  if x < 100 then [dc (x / 10), dc (x % 10)] else (Nat.repr x).data

/-- Four-digit zero-padded decimal rendering (chrono `Pad::Zero`, width 4). -/
def pad4 (x : Nat) : List Char :=
  if x < 10000 then [dc (x / 1000), dc (x / 100 % 10), dc (x / 10 % 10), dc (x % 10)]
  else (Nat.repr x).data

/-- chrono `%Y` rendering: sign for negative years, abs padded to 4. -/
def yearChars (y : Int) : List Char :=
  if y < 0 then '-' :: pad4 (-y).toNat else pad4 y.toNat

/-- `NaiveDateTime`: calendar date plus time of day, no offset. -/
structure NaiveDT where
  y : Int
  mo : Nat
  d : Nat
  h : Nat
  mi : Nat
  s : Nat
  deriving DecidableEq, Repr

/-- Proleptic Gregorian leap year rule. -/
def isLeap (y : Int) : Bool := decide (y % 4 = 0 ∧ y % 100 ≠ 0) || decide (y % 400 = 0)

/-- Days in a month of the proleptic Gregorian calendar. -/
def daysInMonth (y : Int) (mo : Nat) : Nat :=
  if mo = 2 then (if isLeap y then 29 else 28)
  else if mo = 4 ∨ mo = 6 ∨ mo = 9 ∨ mo = 11 then 30 else 31

/-- Field validation performed by chrono when a `Parsed` is turned into a
`NaiveDateTime` (`NaiveDate::from_ymd_opt` / `NaiveTime::from_hms_opt`;
chrono's representable year range is ±262143). -/
def validFields (dt : NaiveDT) : Bool :=
  if -262144 ≤ dt.y ∧ dt.y ≤ 262143 ∧ 1 ≤ dt.mo ∧ dt.mo ≤ 12 ∧ 1 ≤ dt.d ∧
      dt.d ≤ daysInMonth dt.y dt.mo ∧ dt.h ≤ 23 ∧ dt.mi ≤ 59 ∧ dt.s ≤ 59
  then true else false

/-- chrono `Parsed`: the fields accumulated while running format items. -/
structure Parsed where
  y : Option Int := none
  mo : Option Nat := none
  d : Option Nat := none
  h : Option Nat := none
  mi : Option Nat := none
  s : Option Nat := none
  off : Option Int := none
  deriving DecidableEq, Repr

/-- The numeric strftime fields used by the program's format strings. -/
inductive NumField
  | year
  | month
  | day
  | hour
  | minute
  | second
  deriving DecidableEq, Repr

/-- The timezone strftime items tried by `parse_timezone`:
`%#z` (offset, minutes may be missing, `Z` allowed), `%:z`/`%::z` (offset,
minutes required; chrono parses both identically), `%Z` (skips a name
token and never yields an offset). -/
inductive TzKind
  | permissive
  | colonOpt
  | name
  deriving DecidableEq, Repr

/-- One strftime format item as chrono parses it. -/
inductive Item
  | lit (c : Char)
  | space
  | num (f : NumField)
  | tzOff (k : TzKind)
  deriving DecidableEq, Repr

/-- chrono `scan::colon_or_space`: drop any number of colons or whitespace. -/
def colonOrSpace : List Char → List Char
  | [] => []
  | c :: cs => if c = ':' ∨ isWs c then colonOrSpace cs else c :: cs

/-- The minutes part of chrono `scan::timezone_offset`: two digits `00..59`
required when two characters remain; a missing tail is tolerated only by
the permissive (`%#z`) variant. -/
def scanMinutes (allowMissing : Bool) (cs : List Char) : Option (Nat × List Char) :=
  match cs with
  | m1 :: m2 :: rest =>
    if isDigitC m1 ∧ isDigitC m2 then
      if digitVal m1 ≤ 5 then some (10 * digitVal m1 + digitVal m2, rest) else none
    else none
  | _ => if allowMissing then some (0, cs) else none

/-- chrono `scan::timezone_offset`: sign (ASCII or U+2212), two hour digits
`00..99`, optional colons/spaces, then minutes per `scanMinutes`.  `Z`/`z`
map to offset 0 when `allowZulu`. -/
def scanTzOffset (allowZulu allowMissingMin : Bool) (cs : List Char) :
    Option (Int × List Char) :=
  match cs with
  | [] => none
  | c :: rest =>
    if allowZulu ∧ (c = 'Z' ∨ c = 'z') then some (0, rest)
    else
      if c = '+' ∨ c = '-' ∨ c = Char.ofNat 8722 then
        match rest with
        | h1 :: h2 :: rest2 =>
          if isDigitC h1 ∧ isDigitC h2 then
            match scanMinutes allowMissingMin (colonOrSpace rest2) with
            | none => none
            | some (m, rest3) =>
              let secs : Int := ((10 * digitVal h1 + digitVal h2) * 3600 + m * 60 : Nat)
              some (if c = '+' then secs else -secs, rest3)
          else none
        | _ => none
      else none

/-- chrono `scan::timezone_name_skip` (`%Z` when parsing): consume up to the
next whitespace character, yielding no offset information. -/
def skipTzName : List Char → List Char
  | [] => []
  | c :: cs => if isWs c then c :: cs else skipTzName cs

/-- chrono's signed-year scan (`%Y`): an explicit sign lifts the width
bound, otherwise at most four digits are taken. -/
def parseYearNum : List Char → Option (Int × List Char)
  | [] => none
  | c :: rest =>
    if c = '-' then (parseNumUnb rest).map (fun v => (-(v.1 : Int), v.2))
    else if c = '+' then (parseNumUnb rest).map (fun v => ((v.1 : Int), v.2))
    else (parseNum 4 (c :: rest)).map (fun v => ((v.1 : Int), v.2))

/-- Run one numeric item (chrono trims leading whitespace, honours an
explicit sign for `%Y`, and otherwise takes at most the field width). -/
def runNumItem : NumField → Parsed → List Char → Option (Parsed × List Char)
  | .year, p, cs0 =>
    (parseYearNum (trimStart cs0)).map (fun v => ({ p with y := some v.1 }, v.2))
  | .month, p, cs0 =>
    (parseNum 2 (trimStart cs0)).map (fun v => ({ p with mo := some v.1 }, v.2))
  | .day, p, cs0 =>
    (parseNum 2 (trimStart cs0)).map (fun v => ({ p with d := some v.1 }, v.2))
  | .hour, p, cs0 =>
    (parseNum 2 (trimStart cs0)).map (fun v => ({ p with h := some v.1 }, v.2))
  | .minute, p, cs0 =>
    (parseNum 2 (trimStart cs0)).map (fun v => ({ p with mi := some v.1 }, v.2))
  | .second, p, cs0 =>
    (parseNum 2 (trimStart cs0)).map (fun v => ({ p with s := some v.1 }, v.2))

/-- Run one format item against the input, as chrono `parse_internal`. -/
def runItem : Item → Parsed → List Char → Option (Parsed × List Char)
  | .lit c, p, cs =>
    match cs with
    | [] => none
    | c' :: rest => if c' = c then some (p, rest) else none
  | .space, p, cs => some (p, trimStart cs)
  | .num f, p, cs => runNumItem f p cs
  | .tzOff .permissive, p, cs =>
    (scanTzOffset true true (trimStart cs)).map (fun v => ({ p with off := some v.1 }, v.2))
  | .tzOff .colonOpt, p, cs =>
    (scanTzOffset false false (trimStart cs)).map (fun v => ({ p with off := some v.1 }, v.2))
  | .tzOff .name, p, cs => some (p, skipTzName cs)

/-- Run a list of format items left to right. -/
def runItems : List Item → Parsed → List Char → Option (Parsed × List Char)
  | [], p, cs => some (p, cs)
  | it :: rest, p, cs =>
    match runItem it p cs with
    | none => none
    | some pr => runItems rest pr.1 pr.2

/-- chrono `Parsed::to_naive_datetime_with_offset(0)`: all six fields must
be present and in range. -/
def Parsed.toNaiveDT (p : Parsed) : Option NaiveDT :=
  match p.y, p.mo, p.d, p.h, p.mi, p.s with
  | some y, some mo, some d, some h, some mi, some s =>
    let dt : NaiveDT := ⟨y, mo, d, h, mi, s⟩
    if validFields dt then some dt else none
  | _, _, _, _, _, _ => none

/-- chrono `Parsed::to_naive_time`: the time fields must be present and in
range. -/
def Parsed.toTime (p : Parsed) : Option (Nat × Nat × Nat) :=
  match p.h, p.mi, p.s with
  | some h, some mi, some s =>
    if h ≤ 23 ∧ mi ≤ 59 ∧ s ≤ 59 then some (h, mi, s) else none
  | _, _, _ => none

/-- Items of the format string `"%Y-%m-%d %H:%M:%S"`. -/
def fmtSpaceItems : List Item :=
  [.num .year, .lit '-', .num .month, .lit '-', .num .day, .space,
   .num .hour, .lit ':', .num .minute, .lit ':', .num .second]

/-- Items of the format string `"%Y-%m-%dT%H:%M:%S"`. -/
def fmtTItems : List Item :=
  [.num .year, .lit '-', .num .month, .lit '-', .num .day, .lit 'T',
   .num .hour, .lit ':', .num .minute, .lit ':', .num .second]

/-- Items of the format string `"%H:%M:%S"`. -/
def fmtHmsItems : List Item :=
  [.num .hour, .lit ':', .num .minute, .lit ':', .num .second]

/-- `const FORMATS: &[&str] = &["%Y-%m-%d %H:%M:%S", "%Y-%m-%dT%H:%M:%S"]`,
in the source's order: space separator first, then the 'T' separator. -/
def FORMATS : List (List Item) := [fmtSpaceItems, fmtTItems]

/-- `NaiveDateTime::parse_and_remainder`: run the items against a prefix of
the input and validate the collected fields. -/
def parseAndRemainderDT (items : List Item) (cs : List Char) :
    Option (NaiveDT × List Char) :=
  match runItems items {} cs with
  | none => none
  | some pr =>
    match pr.1.toNaiveDT with
    | none => none
    | some dt => some (dt, pr.2)

/-- `NaiveTime::parse_and_remainder(datetime, "%H:%M:%S").is_ok()`. -/
def timeMatches (cs : List Char) : Bool :=
  match runItems fmtHmsItems {} cs with
  | none => false
  | some pr => pr.1.toTime.isSome

/-- A named timezone from the external IANA catalog: its identifier, and its
abbreviation and fixed UTC offset (in seconds) as functions of the absolute
instant (seconds since the Unix epoch) they are evaluated at. -/
structure Tz where
  name : String
  abbrevAt : Int → String
  offsetAt : Int → Int

/-- `HashMap::insert`: replace the value when the key is present. -/
def dbInsert (m : List (String × Tz)) (k : String) (v : Tz) : List (String × Tz) :=
  match m with
  | [] => [(k, v)]
  | kv :: rest => if kv.1 = k then (k, v) :: rest else kv :: dbInsert rest k v

/-- `HashMap::get`. -/
def dbLookup (m : List (String × Tz)) (k : String) : Option Tz :=
  match m with
  | [] => none
  | kv :: rest => if kv.1 = k then some kv.2 else dbLookup rest k

/-- `build_timezone_db`: for every zone of the catalog, insert its lowercased
abbreviation as observed at the current instant; later zones overwrite
earlier ones on collision. -/
def build_timezone_db (catalog : List Tz) (now : Int) : List (String × Tz) :=
  catalog.foldl (fun m tz => dbInsert m (strToLower (tz.abbrevAt now)) tz) []

/-- Days from the civil epoch 1970-01-01 of a Gregorian date
(Howard Hinnant's `days_from_civil`, as used by chrono's internals). -/
def daysFromCivil (y : Int) (mo d : Nat) : Int :=
  let y' : Int := if mo ≤ 2 then y - 1 else y
  let era : Int := (if 0 ≤ y' then y' else y' - 399) / 400
  let yoe : Int := y' - era * 400
  let mp : Int := if 2 < mo then (mo : Int) - 3 else (mo : Int) + 9
  let doy : Int := (153 * mp + 2) / 5 + (d : Int) - 1
  let doe : Int := yoe * 365 + yoe / 4 - yoe / 100 + doy
  era * 146097 + doe - 719468

/-- Seconds since the Unix epoch of a naive datetime read as UTC
(`NaiveDateTime::and_utc().timestamp()`). -/
def NaiveDT.absUtc (dt : NaiveDT) : Int :=
  daysFromCivil dt.y dt.mo dt.d * 86400 + dt.h * 3600 + dt.mi * 60 + dt.s

/-- Rendering of a naive datetime with `"%Y-%m-%d %H:%M:%S"`. -/
def dtSpaceChars (dt : NaiveDT) : List Char :=
  yearChars dt.y ++ '-' :: (pad2 dt.mo ++ '-' :: (pad2 dt.d ++ ' ' ::
    (pad2 dt.h ++ ':' :: (pad2 dt.mi ++ ':' :: pad2 dt.s))))

/-- Rendering of a naive datetime with `"%Y-%m-%dT%H:%M:%S"`. -/
def dtTChars (dt : NaiveDT) : List Char :=
  yearChars dt.y ++ '-' :: (pad2 dt.mo ++ '-' :: (pad2 dt.d ++ 'T' ::
    (pad2 dt.h ++ ':' :: (pad2 dt.mi ++ ':' :: pad2 dt.s))))

/-- `DateTime::parse_from_str` for a format ending in a timezone item: all
input must be consumed, the fields must validate, an offset must have been
produced, and the offset must be a representable `FixedOffset` (strictly
within one day).  The program only uses the resulting offset. -/
def parseFromStrOffset (items : List Item) (cs : List Char) : Option Int :=
  match runItems items {} cs with
  | none => none
  | some pr =>
    if pr.2 = [] then
      match pr.1.toNaiveDT, pr.1.off with
      | some _, some off => if -86400 < off ∧ off < 86400 then some off else none
      | _, _ => none
    else none

/-- The four timezone formats tried by `parse_timezone`, in source order:
`"%#z"`, `"%:z"`, `"%::z"`, `"%Z"`. -/
def tzFormatKinds : List TzKind := [.permissive, .colonOpt, .colonOpt, .name]

/-- The loop of `parse_timezone`: for each timezone format, re-parse the
rendered reference datetime with the uppercased token appended, under
`"%Y-%m-%d %H:%M:%S {format}"`; first success wins. -/
def tryTzFormats (dtStr : List Char) (tokenUp : List Char) :
    List TzKind → Option Int
  | [] => none
  | k :: rest =>
    match parseFromStrOffset (fmtSpaceItems ++ [Item.space, Item.tzOff k])
        (dtStr ++ ' ' :: tokenUp) with
    | some off => some off
    | none => tryTzFormats dtStr tokenUp rest

/-- `parse_timezone(datetime, timezone)`: try the four syntactic formats,
then fall back to the timezone database keyed by the lowercased token; on a
database hit, return the zone's offset at the reference instant. -/
def parse_timezone (dt : NaiveDT) (timezone : String) (db : List (String × Tz)) :
    Option Int :=
  match tryTzFormats (dtSpaceChars dt) (timezone.data.map toUpperC) tzFormatKinds with
  | some off => some off
  | none =>
    match dbLookup db (strToLower timezone) with
    | some tz => some (tz.offsetAt dt.absUtc)
    | none => none

/-- chrono `LocalResult`. -/
inductive LocalResult (α : Type)
  | single (a : α)
  | ambiguous (a b : α)
  | notFound
  deriving DecidableEq, Repr

/-- `DateTime<FixedOffset>`: a naive local datetime bound to a fixed UTC
offset in seconds. -/
structure DateTimeFO where
  dt : NaiveDT
  off : Int
  deriving DecidableEq, Repr

/-- `NaiveDateTime::and_local_timezone(offset)` for a `FixedOffset` zone:
chrono's `TimeZone for FixedOffset` maps every local datetime to exactly
one instant, so the result is always `Single`. -/
def and_local_timezone (dt : NaiveDT) (off : Int) : LocalResult DateTimeFO :=
  LocalResult.single ⟨dt, off⟩

/-- Outcome of a Rust function returning `Result` that may also panic. -/
inductive RRes (α : Type)
  | ok (a : α)
  | err
  | panicked
  deriving DecidableEq, Repr

/-- The loop of `parse_datetime` over the candidate formats: on a syntactic
match, `parse_timezone(..).unwrap()` panics when resolution fails, and
`and_local_timezone(..).unwrap()` panics on a non-`Single` result. -/
def parseDatetimeGo (cs : List Char) (db : List (String × Tz)) :
    List (List Item) → RRes DateTimeFO
  | [] => .err
  | fmt :: rest =>
    match parseAndRemainderDT fmt cs with
    | some dtrem =>
      match parse_timezone dtrem.1 ⟨trimBoth dtrem.2⟩ db with
      | some off =>
        match and_local_timezone dtrem.1 off with
        | .single d => .ok d
        | _ => .panicked
      | none => .panicked
    | none => parseDatetimeGo cs db rest

/-- `parse_datetime(datetime)`. -/
def parse_datetime (datetime : String) (db : List (String × Tz)) : RRes DateTimeFO :=
  parseDatetimeGo datetime.data db FORMATS

/-- The host's local calendar date, `Local::now().date_naive()`. -/
structure DateYMD where
  y : Int
  mo : Nat
  d : Nat
  deriving DecidableEq, Repr

/-- `date_naive().format("%Y-%m-%d")`. -/
def dateChars (t : DateYMD) : List Char :=
  yearChars t.y ++ '-' :: (pad2 t.mo ++ '-' :: pad2 t.d)

/-- `parse(datetime)`: when the input matches a time-only prefix, prepend
today's local date, then run `parse_datetime`. -/
def parse (today : DateYMD) (datetime : String) (db : List (String × Tz)) :
    RRes DateTimeFO :=
  if timeMatches datetime.data then
    parse_datetime ⟨dateChars today ++ ' ' :: datetime.data⟩ db
  else
    parse_datetime datetime db

/-- `DateTime::to_rfc3339` for a whole-second instant: the 'T'-separated
rendering followed by the `%:z` offset. -/
def offCharsOf (off : Int) : List Char :=
  (if off < 0 then '-' else '+') ::
    (pad2 (off.natAbs / 3600) ++ ':' :: pad2 (off.natAbs % 3600 / 60))

/-- `DateTime<FixedOffset>::to_rfc3339` (nanoseconds are always zero here). -/
def to_rfc3339 (d : DateTimeFO) : String := ⟨dtTChars d.dt ++ offCharsOf d.off⟩

/-- The absolute instant of a `DateTime<FixedOffset>` in seconds since the
epoch: the local naive datetime minus the offset. -/
def DateTimeFO.abs (d : DateTimeFO) : Int := d.dt.absUtc - d.off

/-- `DateTime<Tz>` as chrono represents it: an absolute instant paired with
the timezone used for display. -/
structure DateTimeTz where
  abs : Int
  tz : Tz

/-- `convert(datetime, timezone)`: project the instant into the target zone;
`with_timezone` preserves the absolute instant and cannot fail. -/
def convert (d : DateTimeFO) (tz : Tz) : DateTimeTz := ⟨d.abs, tz⟩

/-- The command line arguments consumed by `main`. -/
structure Args where
  datetime : String
  dest_tz : String
  verbose : Bool

/-- Observable outcome of `main`: an `exit(1)` with a stderr message, a
printed conversion result, or a panic. -/
inductive MainResult
  | exited (code : Nat) (msg : String)
  | printed (res : DateTimeTz)
  | panicked

/-- `main`: build the timezone database, validate the destination timezone
before anything else, then parse (panicking on failure) and convert. -/
def main (args : Args) (catalog : List Tz) (now : Int) (today : DateYMD) :
    MainResult :=
  let db := build_timezone_db catalog now
  match dbLookup db (strToLower args.dest_tz) with
  | none =>
    .exited 1 ("Destination timezone " ++ args.dest_tz ++
      " could not be found in the timezone database")
  | some tz =>
    match parse today args.datetime db with
    | .ok d => .printed (convert d tz)
    | _ => .panicked

/-- First format of the priority list that matches a prefix of the input,
with the produced naive datetime and remainder. -/
def firstParse : List (List Item) → List Char → Option (NaiveDT × List Char)
  | [], _ => none
  | f :: rest, cs =>
    match parseAndRemainderDT f cs with
    | some r => some r
    | none => firstParse rest cs

/-- The character form of a numeric offset token `±HH:MM`. -/
def offTokChars (neg : Bool) (oh om : Nat) : List Char :=
  (if neg then '-' else '+') :: (pad2 oh ++ ':' :: pad2 om)

/-- The offset value in seconds denoted by a numeric offset token. -/
def offVal (neg : Bool) (oh om : Nat) : Int :=
  if neg then -((oh * 3600 + om * 60 : Nat) : Int) else ((oh * 3600 + om * 60 : Nat) : Int)

/-- A concrete timezone catalog modelled from chrono-tz data as observed in
October 2023, for evaluating the model at the inputs used by the program's
tests: UTC, Asia/Tokyo (JST, +09:00), Asia/Kolkata (IST, +05:30). -/
def tzUTC : Tz := ⟨"UTC", fun _ => "UTC", fun _ => 0⟩

/-- Asia/Tokyo: abbreviation JST, fixed offset +09:00 (no DST). -/
def tzTokyo : Tz := ⟨"Asia/Tokyo", fun _ => "JST", fun _ => 32400⟩

/-- Asia/Kolkata: abbreviation IST, fixed offset +05:30 (no DST). -/
def tzKolkata : Tz := ⟨"Asia/Kolkata", fun _ => "IST", fun _ => 19800⟩

/-- The concrete catalog. -/
def catalogC : List Tz := [tzUTC, tzTokyo, tzKolkata]

/-- A fixed evaluation instant (2023-10-22T10:00:00Z). -/
def now0 : Int := 1697968800

/-- The timezone database built from the concrete catalog. -/
def dbC : List (String × Tz) := build_timezone_db catalogC now0

/-- A fixed host-local calendar date for `Local::now().date_naive()`. -/
def today0 : DateYMD := ⟨2023, 10, 22⟩

/-- The naive datetime 2023-10-22 10:34:16 used by the program's tests. -/
def dt0 : NaiveDT := ⟨2023, 10, 22, 10, 34, 16⟩

theorem toNat_dc {d : Nat} (h : d ≤ 9) : (dc d).toNat = 48 + d := by
  interval_cases d <;> decide

theorem char_ne_of_toNat_ne {c c' : Char} (h : c.toNat ≠ c'.toNat) : c ≠ c' :=
  fun he => h (he ▸ rfl)

theorem isDigitC_dc {d : Nat} (h : d ≤ 9) : isDigitC (dc d) = true := by
  rw [isDigitC, toNat_dc h]
  exact decide_eq_true (by omega)

theorem digitVal_dc {d : Nat} (h : d ≤ 9) : digitVal (dc d) = d := by
  rw [digitVal, toNat_dc h]
  omega

theorem toNat_of_digit {c : Char} (h : isDigitC c = true) :
    48 ≤ c.toNat ∧ c.toNat ≤ 57 := by
  rw [isDigitC, decide_eq_true_eq] at h
  exact h

theorem isWs_of_digit {c : Char} (h : isDigitC c = true) : isWs c = false := by
  have := toNat_of_digit h
  rw [isWs]
  exact decide_eq_false (by omega)

theorem isWs_dc {d : Nat} (h : d ≤ 9) : isWs (dc d) = false :=
  isWs_of_digit (isDigitC_dc h)

theorem digit_ne_of_not_digit {c c' : Char} (h : isDigitC c = true)
    (h' : isDigitC c' = false) : c ≠ c' := by
  intro he
  rw [he, h'] at h
  cases h

theorem dc_ne_colon {d : Nat} (h : d ≤ 9) : dc d ≠ ':' :=
  digit_ne_of_not_digit (isDigitC_dc h) (by decide)

theorem dc_ne_dash {d : Nat} (h : d ≤ 9) : dc d ≠ '-' :=
  digit_ne_of_not_digit (isDigitC_dc h) (by decide)

theorem dc_ne_plus {d : Nat} (h : d ≤ 9) : dc d ≠ '+' :=
  digit_ne_of_not_digit (isDigitC_dc h) (by decide)

theorem toUpperC_of_low {c : Char} (h : c.toNat ≤ 96) : toUpperC c = c := by
  rw [toUpperC, if_neg]
  omega

theorem toUpperC_dc {d : Nat} (h : d ≤ 9) : toUpperC (dc d) = dc d :=
  toUpperC_of_low (by have := toNat_dc h; omega)

theorem trimStart_cons_not_ws {c : Char} {cs : List Char} (h : isWs c = false) :
    trimStart (c :: cs) = c :: cs := by
  rw [trimStart, h]
  rfl

theorem trimStart_cons_ws {c : Char} {cs : List Char} (h : isWs c = true) :
    trimStart (c :: cs) = trimStart cs := by
  rw [trimStart, h]
  rfl

theorem pad2_eq {x : Nat} (h : x ≤ 99) : pad2 x = [dc (x / 10), dc (x % 10)] := by
  rw [pad2, if_pos (by omega)]

theorem pad4_eq {x : Nat} (h : x ≤ 9999) :
    pad4 x = [dc (x / 1000), dc (x / 100 % 10), dc (x / 10 % 10), dc (x % 10)] := by
  rw [pad4, if_pos (by omega)]

theorem takeDigits_nil (w acc cnt : Nat) : takeDigits w acc cnt [] = (acc, cnt, []) := by
  rw [takeDigits]

theorem takeDigits_zero (acc cnt : Nat) (cs : List Char) :
    takeDigits 0 acc cnt cs = (acc, cnt, cs) := by
  rcases cs with _ | ⟨c, cs'⟩
  · rw [takeDigits]
  · rw [takeDigits, if_pos rfl]

theorem takeDigits_stop {c : Char} {cs : List Char} (h : isDigitC c = false)
    (w acc cnt : Nat) : takeDigits w acc cnt (c :: cs) = (acc, cnt, c :: cs) := by
  rw [takeDigits]
  rcases Nat.eq_zero_or_pos w with hw | hw
  · rw [if_pos hw]
  · rw [if_neg (by omega), h]
    rfl

theorem takeDigits_step {c : Char} {cs : List Char} {w : Nat}
    (h : isDigitC c = true) (hw : w ≠ 0) (acc cnt : Nat) :
    takeDigits w acc cnt (c :: cs) =
      takeDigits (w - 1) (10 * acc + digitVal c) (cnt + 1) cs := by
  rw [takeDigits, if_neg hw, if_pos h]

theorem parseNum_of_takeDigits {maxw : Nat} {cs rest : List Char} {v cnt : Nat}
    (h : takeDigits maxw 0 0 cs = (v, cnt, rest)) (hcnt : cnt ≠ 0) :
    parseNum maxw cs = some (v, rest) := by
  rw [parseNum, h]
  rw [if_neg hcnt]

theorem parseNum_cons_not_digit {c : Char} {cs : List Char} {w : Nat}
    (h : isDigitC c = false) : parseNum w (c :: cs) = none := by
  rw [parseNum, takeDigits_stop h]
  rfl

theorem parseNum_two_digits {c1 c2 : Char} {cs : List Char}
    (h1 : isDigitC c1 = true) (h2 : isDigitC c2 = true) :
    parseNum 2 (c1 :: c2 :: cs) =
      some (10 * digitVal c1 + digitVal c2, cs) := by
  have ht : takeDigits 2 0 0 (c1 :: c2 :: cs) =
      (10 * digitVal c1 + digitVal c2, 2, cs) := by
    rw [takeDigits_step h1 (by omega), takeDigits_step h2 (by omega),
      takeDigits_zero]
    simp only [Prod.mk.injEq, and_true]
    omega
  exact parseNum_of_takeDigits ht (by omega)

theorem parsePad2 {x : Nat} (h : x ≤ 99) (rest : List Char) :
    parseNum 2 (pad2 x ++ rest) = some (x, rest) := by
  rw [pad2_eq h, List.cons_append, List.cons_append, List.nil_append,
    parseNum_two_digits (isDigitC_dc (by omega)) (isDigitC_dc (by omega)),
    digitVal_dc (by omega), digitVal_dc (by omega)]
  congr 2
  omega

theorem parsePad4 {x : Nat} (h : x ≤ 9999) (rest : List Char) :
    parseNum 4 (pad4 x ++ rest) = some (x, rest) := by
  have d1 : x / 1000 ≤ 9 := by omega
  have d2 : x / 100 % 10 ≤ 9 := by omega
  have d3 : x / 10 % 10 ≤ 9 := by omega
  have d4 : x % 10 ≤ 9 := by omega
  rw [pad4_eq h]
  simp only [List.cons_append, List.nil_append]
  have ht : takeDigits 4 0 0
      (dc (x / 1000) :: dc (x / 100 % 10) :: dc (x / 10 % 10) :: dc (x % 10) :: rest) =
      (x, 4, rest) := by
    rw [takeDigits_step (isDigitC_dc d1) (by omega),
      takeDigits_step (isDigitC_dc d2) (by omega),
      takeDigits_step (isDigitC_dc d3) (by omega),
      takeDigits_step (isDigitC_dc d4) (by omega),
      takeDigits_zero,
      digitVal_dc d1, digitVal_dc d2, digitVal_dc d3, digitVal_dc d4]
    simp only [Prod.mk.injEq, and_true]
    have h1 : x / 100 / 10 = x / 1000 := by
      rw [Nat.div_div_eq_div_mul]
    have h2 : x / 10 / 10 = x / 100 := by
      rw [Nat.div_div_eq_div_mul]
    omega
  exact parseNum_of_takeDigits ht (by omega)

theorem trimStart_pad2 {x : Nat} (h : x ≤ 99) (rest : List Char) :
    trimStart (pad2 x ++ rest) = pad2 x ++ rest := by
  rw [pad2_eq h]
  simp only [List.cons_append, List.nil_append]
  exact trimStart_cons_not_ws (isWs_dc (by omega))

theorem trimStart_pad4 {x : Nat} (h : x ≤ 9999) (rest : List Char) :
    trimStart (pad4 x ++ rest) = pad4 x ++ rest := by
  rw [pad4_eq h]
  simp only [List.cons_append, List.nil_append]
  exact trimStart_cons_not_ws (isWs_dc (by omega))

theorem runItem_lit_eq (c : Char) (p : Parsed) (rest : List Char) :
    runItem (.lit c) p (c :: rest) = some (p, rest) := by
  simp only [runItem, if_pos rfl, if_true]

theorem runItem_lit_ne {c c' : Char} (h : c' ≠ c) (p : Parsed) (rest : List Char) :
    runItem (.lit c) p (c' :: rest) = none := by
  simp only [runItem, if_neg h]

theorem runItem_space (p : Parsed) (cs : List Char) :
    runItem .space p cs = some (p, trimStart cs) := rfl

theorem parseYearNum_pad4 {x : Nat} (h : x ≤ 9999) (rest : List Char) :
    parseYearNum (pad4 x ++ rest) = some ((x : Int), rest) := by
  have hd1 : x / 1000 ≤ 9 := by omega
  rw [pad4_eq h]
  simp only [List.cons_append, List.nil_append, parseYearNum]
  rw [if_neg (dc_ne_dash hd1), if_neg (dc_ne_plus hd1)]
  have := parsePad4 h rest
  rw [pad4_eq h] at this
  simp only [List.cons_append, List.nil_append] at this
  rw [this]
  rfl

theorem runNumItem_year {x : Nat} (h : x ≤ 9999) (p : Parsed) (rest : List Char) :
    runNumItem .year p (pad4 x ++ rest) = some ({ p with y := some (x : Int) }, rest) := by
  simp only [runNumItem]
  rw [trimStart_pad4 h, parseYearNum_pad4 h]
  rfl

theorem runNumItem_month {x : Nat} (h : x ≤ 99) (p : Parsed) (rest : List Char) :
    runNumItem .month p (pad2 x ++ rest) = some ({ p with mo := some x }, rest) := by
  simp only [runNumItem]
  rw [trimStart_pad2 h, parsePad2 h]
  rfl

theorem runNumItem_day {x : Nat} (h : x ≤ 99) (p : Parsed) (rest : List Char) :
    runNumItem .day p (pad2 x ++ rest) = some ({ p with d := some x }, rest) := by
  simp only [runNumItem]
  rw [trimStart_pad2 h, parsePad2 h]
  rfl

theorem runNumItem_hour {x : Nat} (h : x ≤ 99) (p : Parsed) (rest : List Char) :
    runNumItem .hour p (pad2 x ++ rest) = some ({ p with h := some x }, rest) := by
  simp only [runNumItem]
  rw [trimStart_pad2 h, parsePad2 h]
  rfl

theorem runNumItem_minute {x : Nat} (h : x ≤ 99) (p : Parsed) (rest : List Char) :
    runNumItem .minute p (pad2 x ++ rest) = some ({ p with mi := some x }, rest) := by
  simp only [runNumItem]
  rw [trimStart_pad2 h, parsePad2 h]
  rfl

theorem runNumItem_second {x : Nat} (h : x ≤ 99) (p : Parsed) (rest : List Char) :
    runNumItem .second p (pad2 x ++ rest) = some ({ p with s := some x }, rest) := by
  simp only [runNumItem]
  rw [trimStart_pad2 h, parsePad2 h]
  rfl

theorem runItems_cons_some {it : Item} {its : List Item} {p p' : Parsed}
    {cs cs' : List Char} (h : runItem it p cs = some (p', cs')) :
    runItems (it :: its) p cs = runItems its p' cs' := by
  rw [runItems, h]

theorem runItems_cons_none {it : Item} {its : List Item} {p : Parsed}
    {cs : List Char} (h : runItem it p cs = none) :
    runItems (it :: its) p cs = none := by
  rw [runItems, h]

theorem runItems_append (l1 l2 : List Item) (p : Parsed) (cs : List Char) :
    runItems (l1 ++ l2) p cs =
      match runItems l1 p cs with
      | none => none
      | some pr => runItems l2 pr.1 pr.2 := by
  induction l1 generalizing p cs with
  | nil => rw [List.nil_append, runItems]
  | cons it its ih =>
    rw [List.cons_append, runItems, runItems]
    cases runItem it p cs with
    | none => rfl
    | some pr => exact ih pr.1 pr.2

theorem runItem_num (f : NumField) (p : Parsed) (cs : List Char) :
    runItem (.num f) p cs = runNumItem f p cs := rfl

theorem daysInMonth_le (y : Int) (mo : Nat) : daysInMonth y mo ≤ 31 := by
  rw [daysInMonth]
  split
  · split <;> omega
  · split <;> omega

theorem validFields_le {dt : NaiveDT} (hv : validFields dt = true) :
    dt.mo ≤ 99 ∧ dt.d ≤ 99 ∧ dt.h ≤ 99 ∧ dt.mi ≤ 99 ∧ dt.s ≤ 99 := by
  rw [validFields] at hv
  split at hv
  · rename_i hp
    have := daysInMonth_le dt.y dt.mo
    omega
  · cases hv

theorem dtSpaceChars_assoc (dt : NaiveDT) (rest : List Char) (hy0 : 0 ≤ dt.y) :
    dtSpaceChars dt ++ rest =
      pad4 dt.y.toNat ++ '-' :: (pad2 dt.mo ++ '-' :: (pad2 dt.d ++ ' ' ::
        (pad2 dt.h ++ ':' :: (pad2 dt.mi ++ ':' :: (pad2 dt.s ++ rest))))) := by
  rw [dtSpaceChars, yearChars, if_neg (by omega)]
  simp only [List.append_assoc, List.cons_append]

theorem dtTChars_assoc (dt : NaiveDT) (rest : List Char) (hy0 : 0 ≤ dt.y) :
    dtTChars dt ++ rest =
      pad4 dt.y.toNat ++ '-' :: (pad2 dt.mo ++ '-' :: (pad2 dt.d ++ 'T' ::
        (pad2 dt.h ++ ':' :: (pad2 dt.mi ++ ':' :: (pad2 dt.s ++ rest))))) := by
  rw [dtTChars, yearChars, if_neg (by omega)]
  simp only [List.append_assoc, List.cons_append]

theorem trimStart_space_pad2 {x : Nat} (h : x ≤ 99) (rest : List Char) :
    trimStart (' ' :: (pad2 x ++ rest)) = pad2 x ++ rest := by
  rw [trimStart_cons_ws (by decide), trimStart_pad2 h]

theorem runItems_dtSpace (p : Parsed) (dt : NaiveDT) (rest : List Char)
    (hy0 : 0 ≤ dt.y) (hy : dt.y ≤ 9999) (hmo : dt.mo ≤ 99) (hd : dt.d ≤ 99)
    (hh : dt.h ≤ 99) (hmi : dt.mi ≤ 99) (hs : dt.s ≤ 99) :
    runItems fmtSpaceItems p (dtSpaceChars dt ++ rest) =
      some ({ p with y := some dt.y, mo := some dt.mo, d := some dt.d,
                     h := some dt.h, mi := some dt.mi, s := some dt.s }, rest) := by
  have hyt : dt.y.toNat ≤ 9999 := by omega
  have hcast : ((dt.y.toNat : Int)) = dt.y := Int.toNat_of_nonneg hy0
  rw [dtSpaceChars_assoc dt rest hy0, fmtSpaceItems,
    runItems_cons_some (by rw [runItem_num, runNumItem_year hyt, hcast]),
    runItems_cons_some (runItem_lit_eq '-' _ _),
    runItems_cons_some (by rw [runItem_num, runNumItem_month hmo]),
    runItems_cons_some (runItem_lit_eq '-' _ _),
    runItems_cons_some (by rw [runItem_num, runNumItem_day hd]),
    runItems_cons_some (by rw [runItem_space, trimStart_space_pad2 hh]),
    runItems_cons_some (by rw [runItem_num, runNumItem_hour hh]),
    runItems_cons_some (runItem_lit_eq ':' _ _),
    runItems_cons_some (by rw [runItem_num, runNumItem_minute hmi]),
    runItems_cons_some (runItem_lit_eq ':' _ _),
    runItems_cons_some (by rw [runItem_num, runNumItem_second hs]),
    runItems]

theorem runItems_dtT (p : Parsed) (dt : NaiveDT) (rest : List Char)
    (hy0 : 0 ≤ dt.y) (hy : dt.y ≤ 9999) (hmo : dt.mo ≤ 99) (hd : dt.d ≤ 99)
    (hh : dt.h ≤ 99) (hmi : dt.mi ≤ 99) (hs : dt.s ≤ 99) :
    runItems fmtTItems p (dtTChars dt ++ rest) =
      some ({ p with y := some dt.y, mo := some dt.mo, d := some dt.d,
                     h := some dt.h, mi := some dt.mi, s := some dt.s }, rest) := by
  have hyt : dt.y.toNat ≤ 9999 := by omega
  have hcast : ((dt.y.toNat : Int)) = dt.y := Int.toNat_of_nonneg hy0
  rw [dtTChars_assoc dt rest hy0, fmtTItems,
    runItems_cons_some (by rw [runItem_num, runNumItem_year hyt, hcast]),
    runItems_cons_some (runItem_lit_eq '-' _ _),
    runItems_cons_some (by rw [runItem_num, runNumItem_month hmo]),
    runItems_cons_some (runItem_lit_eq '-' _ _),
    runItems_cons_some (by rw [runItem_num, runNumItem_day hd]),
    runItems_cons_some (runItem_lit_eq 'T' _ _),
    runItems_cons_some (by rw [runItem_num, runNumItem_hour hh]),
    runItems_cons_some (runItem_lit_eq ':' _ _),
    runItems_cons_some (by rw [runItem_num, runNumItem_minute hmi]),
    runItems_cons_some (runItem_lit_eq ':' _ _),
    runItems_cons_some (by rw [runItem_num, runNumItem_second hs]),
    runItems]

theorem runItems_fmtSpace_T_fails (p : Parsed) (dt : NaiveDT) (rest : List Char)
    (hy0 : 0 ≤ dt.y) (hy : dt.y ≤ 9999) (hmo : dt.mo ≤ 99) (hd : dt.d ≤ 99) :
    runItems fmtSpaceItems p (dtTChars dt ++ rest) = none := by
  have hyt : dt.y.toNat ≤ 9999 := by omega
  have hcast : ((dt.y.toNat : Int)) = dt.y := Int.toNat_of_nonneg hy0
  have hhournone : ∀ (q : Parsed) (l : List Char),
      runItem (.num .hour) q ('T' :: l) = none := by
    intro q l
    rw [runItem_num]
    simp only [runNumItem]
    rw [trimStart_cons_not_ws (by decide), parseNum_cons_not_digit (by decide)]
    rfl
  rw [dtTChars_assoc dt rest hy0, fmtSpaceItems,
    runItems_cons_some (by rw [runItem_num, runNumItem_year hyt, hcast]),
    runItems_cons_some (runItem_lit_eq '-' _ _),
    runItems_cons_some (by rw [runItem_num, runNumItem_month hmo]),
    runItems_cons_some (runItem_lit_eq '-' _ _),
    runItems_cons_some (by rw [runItem_num, runNumItem_day hd]),
    runItems_cons_some (by rw [runItem_space, trimStart_cons_not_ws (by decide)]),
    runItems_cons_none (hhournone _ _)]

theorem toNaiveDT_filled (dt : NaiveDT) (hv : validFields dt = true) :
    Parsed.toNaiveDT { y := some dt.y, mo := some dt.mo, d := some dt.d,
                       h := some dt.h, mi := some dt.mi, s := some dt.s, off := none } =
      some dt := by
  simp only [Parsed.toNaiveDT]
  rw [hv]
  rfl

theorem parseAndRemainder_dtSpace (dt : NaiveDT) (rest : List Char)
    (hv : validFields dt = true) (hy0 : 0 ≤ dt.y) (hy : dt.y ≤ 9999) :
    parseAndRemainderDT fmtSpaceItems (dtSpaceChars dt ++ rest) = some (dt, rest) := by
  have hb := validFields_le hv
  rw [parseAndRemainderDT,
    runItems_dtSpace {} dt rest hy0 hy (by omega) (by omega) (by omega) (by omega) (by omega)]
  simp only []
  rw [toNaiveDT_filled dt hv]

theorem parseAndRemainder_dtT (dt : NaiveDT) (rest : List Char)
    (hv : validFields dt = true) (hy0 : 0 ≤ dt.y) (hy : dt.y ≤ 9999) :
    parseAndRemainderDT fmtTItems (dtTChars dt ++ rest) = some (dt, rest) := by
  have hb := validFields_le hv
  rw [parseAndRemainderDT,
    runItems_dtT {} dt rest hy0 hy (by omega) (by omega) (by omega) (by omega) (by omega)]
  simp only []
  rw [toNaiveDT_filled dt hv]

theorem parseAndRemainder_fmtSpace_T_fails (dt : NaiveDT) (rest : List Char)
    (hv : validFields dt = true) (hy0 : 0 ≤ dt.y) (hy : dt.y ≤ 9999) :
    parseAndRemainderDT fmtSpaceItems (dtTChars dt ++ rest) = none := by
  have hb := validFields_le hv
  rw [parseAndRemainderDT,
    runItems_fmtSpace_T_fails {} dt rest hy0 hy (by omega) (by omega)]

theorem timeMatches_three_digits {c1 c2 c3 : Char} (h1 : isDigitC c1 = true)
    (h2 : isDigitC c2 = true) (h3 : isDigitC c3 = true) (cs : List Char) :
    timeMatches (c1 :: c2 :: c3 :: cs) = false := by
  have ehour : runItem (.num .hour) ({} : Parsed) (c1 :: c2 :: c3 :: cs) =
      some ({ h := some (10 * digitVal c1 + digitVal c2) }, c3 :: cs) := by
    rw [runItem_num]
    simp only [runNumItem]
    rw [trimStart_cons_not_ws (isWs_of_digit h1), parseNum_two_digits h1 h2]
    rfl
  have hnone : runItems fmtHmsItems {} (c1 :: c2 :: c3 :: cs) = none := by
    rw [fmtHmsItems, runItems_cons_some ehour,
      runItems_cons_none
        (runItem_lit_ne (digit_ne_of_not_digit h3 (by decide)) _ _)]
  simp only [timeMatches, hnone]

theorem timeMatches_dtSpace (dt : NaiveDT) (rest : List Char)
    (hy0 : 0 ≤ dt.y) (hy : dt.y ≤ 9999) :
    timeMatches (dtSpaceChars dt ++ rest) = false := by
  have hyt : dt.y.toNat ≤ 9999 := by omega
  rw [dtSpaceChars_assoc dt rest hy0, pad4_eq hyt]
  simp only [List.cons_append, List.nil_append]
  exact timeMatches_three_digits (isDigitC_dc (by omega)) (isDigitC_dc (by omega))
    (isDigitC_dc (by omega)) _

theorem timeMatches_dtT (dt : NaiveDT) (rest : List Char)
    (hy0 : 0 ≤ dt.y) (hy : dt.y ≤ 9999) :
    timeMatches (dtTChars dt ++ rest) = false := by
  have hyt : dt.y.toNat ≤ 9999 := by omega
  rw [dtTChars_assoc dt rest hy0, pad4_eq hyt]
  simp only [List.cons_append, List.nil_append]
  exact timeMatches_three_digits (isDigitC_dc (by omega)) (isDigitC_dc (by omega))
    (isDigitC_dc (by omega)) _

theorem colonOrSpace_colon (cs : List Char) : colonOrSpace (':' :: cs) = colonOrSpace cs := by
  rw [colonOrSpace, if_pos (Or.inl rfl)]

theorem colonOrSpace_stop {c : Char} (h1 : c ≠ ':') (h2 : isWs c = false)
    (cs : List Char) : colonOrSpace (c :: cs) = c :: cs := by
  rw [colonOrSpace, if_neg]
  intro hc
  rcases hc with hc | hc
  · exact h1 hc
  · rw [h2] at hc
    cases hc

theorem scanMinutes_pad2 {om : Nat} (h : om ≤ 59) (am : Bool) (rest : List Char) :
    scanMinutes am (pad2 om ++ rest) = some (om, rest) := by
  have hm1 : om / 10 ≤ 5 := by omega
  have hm2 : om % 10 ≤ 9 := by omega
  rw [pad2_eq (by omega)]
  simp only [List.cons_append, List.nil_append, scanMinutes]
  rw [if_pos ⟨isDigitC_dc (by omega), isDigitC_dc hm2⟩,
    digitVal_dc (by omega), digitVal_dc hm2, if_pos hm1]
  congr 2
  omega

theorem scanMinutes_pad2_nil {om : Nat} (h : om ≤ 59) (am : Bool) :
    scanMinutes am (pad2 om) = some (om, []) := by
  have := scanMinutes_pad2 h am []
  rwa [List.append_nil] at this

theorem colonOrSpace_pad2 {x : Nat} (h : x ≤ 99) :
    colonOrSpace (pad2 x) = pad2 x := by
  rw [pad2_eq h]
  exact colonOrSpace_stop (dc_ne_colon (by omega)) (isWs_dc (by omega)) _

theorem scanTzOffset_signed (az am : Bool) (sgn : Char)
    (hz : ¬(az = true ∧ (sgn = 'Z' ∨ sgn = 'z')))
    (hsgn : sgn = '+' ∨ sgn = '-' ∨ sgn = Char.ofNat 8722)
    {oh om : Nat} (hoh : oh ≤ 99) (hom : om ≤ 59) :
    scanTzOffset az am (sgn :: (pad2 oh ++ ':' :: pad2 om)) =
      some ((if sgn = '+' then ((oh * 3600 + om * 60 : Nat) : Int)
             else -((oh * 3600 + om * 60 : Nat) : Int)), []) := by
  have hoh1 : oh / 10 ≤ 9 := by omega
  have hoh2 : oh % 10 ≤ 9 := by omega
  rw [pad2_eq hoh]
  simp only [List.cons_append, List.nil_append, scanTzOffset]
  rw [if_neg hz, if_pos hsgn,
    if_pos ⟨isDigitC_dc hoh1, isDigitC_dc hoh2⟩,
    colonOrSpace_colon, colonOrSpace_pad2 (by omega : om ≤ 99),
    scanMinutes_pad2_nil hom, digitVal_dc hoh1, digitVal_dc hoh2]
  have hval : 10 * (oh / 10) + oh % 10 = oh := by omega
  rw [hval]

theorem offTokChars_false (oh om : Nat) :
    offTokChars false oh om = '+' :: (pad2 oh ++ ':' :: pad2 om) := rfl

theorem offTokChars_true (oh om : Nat) :
    offTokChars true oh om = '-' :: (pad2 oh ++ ':' :: pad2 om) := rfl

theorem scanTz_offTok (az am neg : Bool) {oh om : Nat}
    (hoh : oh ≤ 99) (hom : om ≤ 59) :
    scanTzOffset az am (offTokChars neg oh om) = some (offVal neg oh om, []) := by
  cases neg
  · rw [offTokChars_false,
      scanTzOffset_signed az am '+'
        (fun hc => by rcases hc.2 with h | h <;> exact absurd h (by decide))
        (Or.inl rfl) hoh hom,
      if_pos rfl]
    rfl
  · rw [offTokChars_true,
      scanTzOffset_signed az am '-'
        (fun hc => by rcases hc.2 with h | h <;> exact absurd h (by decide))
        (Or.inr (Or.inl rfl)) hoh hom,
      if_neg (by decide)]
    rfl

theorem map_toUpperC_offTok (neg : Bool) {oh om : Nat}
    (hoh : oh ≤ 99) (hom : om ≤ 59) :
    (offTokChars neg oh om).map toUpperC = offTokChars neg oh om := by
  have u1 : toUpperC '+' = '+' := by decide
  have u2 : toUpperC '-' = '-' := by decide
  have u3 : toUpperC ':' = ':' := by decide
  cases neg
  · rw [offTokChars_false, pad2_eq hoh, pad2_eq (show om ≤ 99 by omega)]
    simp only [List.map_cons, List.map_append, List.map_nil, u1, u3,
      toUpperC_dc (show oh / 10 ≤ 9 by omega), toUpperC_dc (show oh % 10 ≤ 9 by omega),
      toUpperC_dc (show om / 10 ≤ 9 by omega), toUpperC_dc (show om % 10 ≤ 9 by omega)]
  · rw [offTokChars_true, pad2_eq hoh, pad2_eq (show om ≤ 99 by omega)]
    simp only [List.map_cons, List.map_append, List.map_nil, u2, u3,
      toUpperC_dc (show oh / 10 ≤ 9 by omega), toUpperC_dc (show oh % 10 ≤ 9 by omega),
      toUpperC_dc (show om / 10 ≤ 9 by omega), toUpperC_dc (show om % 10 ≤ 9 by omega)]

theorem trimStart_offTok (neg : Bool) (oh om : Nat) :
    trimStart (offTokChars neg oh om) = offTokChars neg oh om := by
  cases neg
  · rw [offTokChars_false]
    exact trimStart_cons_not_ws (by decide)
  · rw [offTokChars_true]
    exact trimStart_cons_not_ws (by decide)

theorem trimEnd_append_not_ws {c : Char} (h : isWs c = false) (cs : List Char) :
    trimEnd (cs ++ [c]) = cs ++ [c] := by
  rw [trimEnd, List.reverse_append]
  simp only [List.reverse_cons, List.reverse_nil, List.nil_append, List.cons_append]
  rw [trimStart_cons_not_ws h]
  simp only [List.reverse_cons, List.reverse_reverse]

theorem offTokChars_snoc (neg : Bool) {oh om : Nat} (hom : om ≤ 59) :
    offTokChars neg oh om =
      ((if neg then '-' else '+') :: (pad2 oh ++ [':', dc (om / 10)])) ++ [dc (om % 10)] := by
  rw [offTokChars, pad2_eq (show om ≤ 99 by omega)]
  simp only [List.cons_append, List.append_assoc, List.nil_append]

theorem trimBoth_offTok (neg : Bool) {oh om : Nat} (hom : om ≤ 59) :
    trimBoth (offTokChars neg oh om) = offTokChars neg oh om := by
  rw [trimBoth, trimStart_offTok, offTokChars_snoc neg hom,
    trimEnd_append_not_ws (isWs_dc (by omega))]

theorem runItems_append_some {l1 l2 : List Item} {p p1 : Parsed} {cs cs1 : List Char}
    (h : runItems l1 p cs = some (p1, cs1)) :
    runItems (l1 ++ l2) p cs = runItems l2 p1 cs1 := by
  rw [runItems_append, h]

theorem toNaiveDT_filled_off (dt : NaiveDT) (o : Option Int)
    (hv : validFields dt = true) :
    Parsed.toNaiveDT { y := some dt.y, mo := some dt.mo, d := some dt.d,
                       h := some dt.h, mi := some dt.mi, s := some dt.s, off := o } =
      some dt := by
  simp only [Parsed.toNaiveDT]
  rw [hv]
  rfl

theorem parseFromStr_perm (dt : NaiveDT) (neg : Bool) {oh om : Nat}
    (hv : validFields dt = true) (hy0 : 0 ≤ dt.y) (hy : dt.y ≤ 9999)
    (hoh : oh ≤ 23) (hom : om ≤ 59) :
    parseFromStrOffset (fmtSpaceItems ++ [Item.space, Item.tzOff .permissive])
      (dtSpaceChars dt ++ ' ' :: offTokChars neg oh om) = some (offVal neg oh om) := by
  have hb := validFields_le hv
  have etz : ∀ q : Parsed,
      runItem (.tzOff .permissive) q (offTokChars neg oh om) =
        some ({ q with off := some (offVal neg oh om) }, []) := by
    intro q
    simp only [runItem]
    rw [trimStart_offTok, scanTz_offTok true true neg (by omega) hom]
    rfl
  have hrange : -86400 < offVal neg oh om ∧ offVal neg oh om < 86400 := by
    cases neg <;> simp [offVal] <;> omega
  have hrun : runItems (fmtSpaceItems ++ [Item.space, Item.tzOff .permissive]) {}
      (dtSpaceChars dt ++ ' ' :: offTokChars neg oh om) =
      some ({ y := some dt.y, mo := some dt.mo, d := some dt.d, h := some dt.h,
              mi := some dt.mi, s := some dt.s, off := some (offVal neg oh om) }, []) := by
    rw [runItems_append_some
        (runItems_dtSpace {} dt _ hy0 hy (by omega) (by omega) (by omega) (by omega) (by omega)),
      runItems_cons_some
        (by rw [runItem_space, trimStart_cons_ws (by decide), trimStart_offTok]),
      runItems_cons_some (etz _), runItems]
  rw [parseFromStrOffset, hrun]
  simp only [toNaiveDT_filled_off dt _ hv]
  rw [if_pos hrange]
  rfl

theorem parse_timezone_offTok (dt : NaiveDT) (neg : Bool) {oh om : Nat}
    (db : List (String × Tz))
    (hv : validFields dt = true) (hy0 : 0 ≤ dt.y) (hy : dt.y ≤ 9999)
    (hoh : oh ≤ 23) (hom : om ≤ 59) :
    parse_timezone dt ⟨offTokChars neg oh om⟩ db = some (offVal neg oh om) := by
  have hdata : (⟨offTokChars neg oh om⟩ : String).data = offTokChars neg oh om := rfl
  rw [parse_timezone, hdata, map_toUpperC_offTok neg (by omega) hom, tzFormatKinds,
    tryTzFormats, parseFromStr_perm dt neg hv hy0 hy hoh hom]

theorem tryTzFormats_cons_none {dtStr tokUp : List Char} {k : TzKind}
    {rest : List TzKind}
    (h : parseFromStrOffset (fmtSpaceItems ++ [Item.space, Item.tzOff k])
      (dtStr ++ ' ' :: tokUp) = none) :
    tryTzFormats dtStr tokUp (k :: rest) = tryTzFormats dtStr tokUp rest := by
  rw [tryTzFormats, h]

theorem tryTzFormats_nil (dtStr tokUp : List Char) :
    tryTzFormats dtStr tokUp [] = none := rfl

theorem parseDatetimeGo_firstParse (cs : List Char) (db : List (String × Tz)) :
    parseDatetimeGo cs db FORMATS =
      (match firstParse FORMATS cs with
       | none => RRes.err
       | some dtrem =>
         match parse_timezone dtrem.1 ⟨trimBoth dtrem.2⟩ db with
         | some off => RRes.ok ⟨dtrem.1, off⟩
         | none => RRes.panicked) := by
  rw [FORMATS]
  cases h1 : parseAndRemainderDT fmtSpaceItems cs with
  | some dtrem =>
    simp only [parseDatetimeGo, firstParse, h1, and_local_timezone]
  | none =>
    cases h2 : parseAndRemainderDT fmtTItems cs with
    | some dtrem =>
      simp only [parseDatetimeGo, firstParse, h1, h2, and_local_timezone]
    | none =>
      simp only [parseDatetimeGo, firstParse, h1, h2]

theorem trimBoth_space_cons (tok : List Char) (hts : trimStart tok = tok)
    (hte : trimEnd tok = tok) : trimBoth (' ' :: tok) = tok := by
  rw [trimBoth, trimStart_cons_ws (by decide), hts, hte]

theorem parse_space_token (today : DateYMD) (db : List (String × Tz))
    (dt : NaiveDT) (tok : List Char)
    (hv : validFields dt = true) (hy0 : 0 ≤ dt.y) (hy : dt.y ≤ 9999)
    (hts : trimStart tok = tok) (hte : trimEnd tok = tok) :
    parse today ⟨dtSpaceChars dt ++ ' ' :: tok⟩ db =
      (match parse_timezone dt ⟨tok⟩ db with
       | some off => RRes.ok ⟨dt, off⟩
       | none => RRes.panicked) := by
  have hdata : (⟨dtSpaceChars dt ++ ' ' :: tok⟩ : String).data =
      dtSpaceChars dt ++ ' ' :: tok := rfl
  rw [parse, hdata, timeMatches_dtSpace dt _ hy0 hy, if_neg Bool.false_ne_true,
    parse_datetime, hdata, parseDatetimeGo_firstParse]
  simp only [firstParse, FORMATS, parseAndRemainder_dtSpace dt _ hv hy0 hy,
    trimBoth_space_cons tok hts hte]

theorem tryTzFormats_unresolvable (dt : NaiveDT) (tokUp : List Char)
    (hv : validFields dt = true) (hy0 : 0 ≤ dt.y) (hy : dt.y ≤ 9999)
    (hscan : ∀ az am, scanTzOffset az am tokUp = none)
    (hskip : skipTzName tokUp = [])
    (hts : trimStart tokUp = tokUp) :
    tryTzFormats (dtSpaceChars dt) tokUp tzFormatKinds = none := by
  have hb := validFields_le hv
  have hspace : ∀ q : Parsed, runItem .space q (' ' :: tokUp) = some (q, tokUp) := by
    intro q
    rw [runItem_space, trimStart_cons_ws (by decide), hts]
  have hperm : parseFromStrOffset (fmtSpaceItems ++ [Item.space, Item.tzOff .permissive])
      (dtSpaceChars dt ++ ' ' :: tokUp) = none := by
    have hrun : runItems (fmtSpaceItems ++ [Item.space, Item.tzOff .permissive]) {}
        (dtSpaceChars dt ++ ' ' :: tokUp) = none := by
      rw [runItems_append_some
          (runItems_dtSpace {} dt _ hy0 hy (by omega) (by omega) (by omega) (by omega) (by omega)),
        runItems_cons_some (hspace _),
        runItems_cons_none (by simp only [runItem]; rw [hts, hscan]; rfl)]
    rw [parseFromStrOffset, hrun]
  have hcolon : parseFromStrOffset (fmtSpaceItems ++ [Item.space, Item.tzOff .colonOpt])
      (dtSpaceChars dt ++ ' ' :: tokUp) = none := by
    have hrun : runItems (fmtSpaceItems ++ [Item.space, Item.tzOff .colonOpt]) {}
        (dtSpaceChars dt ++ ' ' :: tokUp) = none := by
      rw [runItems_append_some
          (runItems_dtSpace {} dt _ hy0 hy (by omega) (by omega) (by omega) (by omega) (by omega)),
        runItems_cons_some (hspace _),
        runItems_cons_none (by simp only [runItem]; rw [hts, hscan]; rfl)]
    rw [parseFromStrOffset, hrun]
  have hname : parseFromStrOffset (fmtSpaceItems ++ [Item.space, Item.tzOff .name])
      (dtSpaceChars dt ++ ' ' :: tokUp) = none := by
    have hrun : runItems (fmtSpaceItems ++ [Item.space, Item.tzOff .name]) {}
        (dtSpaceChars dt ++ ' ' :: tokUp) =
        some ({ y := some dt.y, mo := some dt.mo, d := some dt.d, h := some dt.h,
                mi := some dt.mi, s := some dt.s, off := none }, []) := by
      rw [runItems_append_some
          (runItems_dtSpace {} dt _ hy0 hy (by omega) (by omega) (by omega) (by omega) (by omega)),
        runItems_cons_some (hspace _),
        runItems_cons_some (by simp only [runItem]; rw [hskip]),
        runItems]
    rw [parseFromStrOffset, hrun]
    simp only [toNaiveDT_filled_off dt none hv]
    rfl
  rw [tzFormatKinds, tryTzFormats_cons_none hperm, tryTzFormats_cons_none hcolon,
    tryTzFormats_cons_none hcolon, tryTzFormats_cons_none hname, tryTzFormats_nil]

theorem scanTzOffset_local (az am : Bool) :
    scanTzOffset az am ['L', 'O', 'C', 'A', 'L'] = none := by
  simp only [scanTzOffset]
  rw [if_neg (fun hc => by rcases hc.2 with h | h <;> exact absurd h (by decide)),
    if_neg (by decide)]

theorem offCharsOf_offVal (neg : Bool) {oh om : Nat}
    (hoh : oh ≤ 23) (hom : om ≤ 59) (hnz : neg = true → ¬(oh = 0 ∧ om = 0)) :
    offCharsOf (offVal neg oh om) = offTokChars neg oh om := by
  have e1 : (oh * 3600 + om * 60) / 3600 = oh := by omega
  have e2 : (oh * 3600 + om * 60) % 3600 / 60 = om := by omega
  cases neg
  · have hk : offVal false oh om = ((oh * 3600 + om * 60 : Nat) : Int) := rfl
    rw [offCharsOf, hk, if_neg (by omega), Int.natAbs_ofNat, e1, e2, offTokChars]
    rfl
  · have hk : offVal true oh om = -((oh * 3600 + om * 60 : Nat) : Int) := rfl
    have hpos : 0 < oh * 3600 + om * 60 := by
      have := hnz rfl
      omega
    rw [offCharsOf, hk, if_pos (by omega), Int.natAbs_neg, Int.natAbs_ofNat, e1, e2,
      offTokChars]
    rfl

/-- C1: the claim — and the repository's own test `parse_without_timezone` —
states that an input matched completely by a pattern (empty trimmed
remainder) parses successfully with resolved offset +00:00.  The code
disagrees: on "2023-10-22 10:34:16" all four timezone formats fail on the
empty token (`%#z`/`%:z`/`%::z` need a sign, `%Z` never produces an
offset), the empty string is not a database key, so `parse_timezone`
returns `Err` and `parse_datetime` panics at its `.unwrap()`.  This
theorem evaluates the embedded code at the failing input. -/
theorem c1_no_timezone_panics :
    parse today0 "2023-10-22 10:34:16" dbC = RRes.panicked := by decide

/-- C2 counterexample: on an input whose date/time pattern matches
syntactically but whose timezone remainder cannot be resolved, the parse
aborts with a panic; it does not return the error value the claim
promises after exhausting the patterns. -/
theorem c2_counterexample :
    parse_datetime "2023-10-22 10:34:16 zz9" dbC = RRes.panicked ∧
      (RRes.panicked : RRes DateTimeFO) ≠ RRes.err := by
  exact ⟨by decide, by decide⟩

/-- C2 (amended): when the first syntactically matching pattern's trimmed
remainder fails timezone resolution, `parse_datetime` panics at the
`.unwrap()` and never advances to another pattern; an error value is
returned only when no pattern matches syntactically at all. -/
theorem c2_tz_failure_panics (s : String) (db : List (String × Tz)) :
    (∀ dtrem, firstParse FORMATS s.data = some dtrem →
        parse_timezone dtrem.1 ⟨trimBoth dtrem.2⟩ db = none →
        parse_datetime s db = RRes.panicked) ∧
    (firstParse FORMATS s.data = none → parse_datetime s db = RRes.err) := by
  constructor
  · intro dtrem h1 h2
    rw [parse_datetime, parseDatetimeGo_firstParse]
    simp only [h1, h2]
  · intro h1
    rw [parse_datetime, parseDatetimeGo_firstParse]
    simp only [h1]

/-- C2 witness: a concrete instance of the amended claim. -/
theorem c2_tz_failure_panics_witness :
    parse_datetime "2023-10-22 10:34:16 xx" dbC = RRes.panicked :=
  (c2_tz_failure_panics "2023-10-22 10:34:16 xx" dbC).1 (dt0, [' ', 'x', 'x'])
    (by decide) (by decide)

/-- C3 counterexample: the remainder "local" receives no special handling;
at this input the parse panics instead of resolving the host's local
timezone and returning a successful instant. -/
theorem c3_counterexample :
    parse today0 "2023-10-22 10:34:16 local" dbC = RRes.panicked := by decide

/-- C3 (amended): the token "local" is resolved like any other token: the
four syntactic formats reject it, so it is looked up in the timezone
database, and when "local" is not an abbreviation key (as in the real
catalog) the resolution fails and `parse` panics at the `.unwrap()`
instead of using the host's local timezone. -/
theorem c3_local_token_not_special (today : DateYMD) (db : List (String × Tz))
    (dt : NaiveDT) (hv : validFields dt = true) (hy0 : 0 ≤ dt.y) (hy : dt.y ≤ 9999)
    (hdb : dbLookup db "local" = none) :
    parse today ⟨dtSpaceChars dt ++ ' ' :: ['l', 'o', 'c', 'a', 'l']⟩ db =
      RRes.panicked := by
  rw [parse_space_token today db dt _ hv hy0 hy (by decide) (by decide)]
  have hup : (⟨['l', 'o', 'c', 'a', 'l']⟩ : String).data.map toUpperC =
      ['L', 'O', 'C', 'A', 'L'] := by decide
  have hlow : strToLower ⟨['l', 'o', 'c', 'a', 'l']⟩ = "local" := by decide
  have htz : parse_timezone dt ⟨['l', 'o', 'c', 'a', 'l']⟩ db = none := by
    rw [parse_timezone, hup,
      tryTzFormats_unresolvable dt _ hv hy0 hy scanTzOffset_local rfl (by decide)]
    simp only [hlow, hdb]
  simp only [htz]

/-- C3 witness: the amended claim at a concrete input and catalog. -/
theorem c3_local_token_not_special_witness :
    parse today0 ⟨dtSpaceChars dt0 ++ ' ' :: ['l', 'o', 'c', 'a', 'l']⟩ dbC =
      RRes.panicked :=
  c3_local_token_not_special today0 dbC dt0 (by decide) (by decide) (by decide) rfl

/-- C4 counterexample: the priority list tries the space-separated pattern
first; it is not in the claimed order with the 'T'-separated pattern
first. -/
theorem c4_counterexample :
    FORMATS = [fmtSpaceItems, fmtTItems] ∧ FORMATS ≠ [fmtTItems, fmtSpaceItems] :=
  ⟨rfl, by decide⟩

/-- C4 (amended): `parse_datetime` tries the patterns in the source order —
date+time with space separator first, then with 'T' separator — and for
every input its result is the one produced by the first pattern of
`FORMATS` that matches a prefix of the input. -/
theorem c4_first_match (s : String) (db : List (String × Tz)) :
    parse_datetime s db =
      (match firstParse FORMATS s.data with
       | none => RRes.err
       | some dtrem =>
         match parse_timezone dtrem.1 ⟨trimBoth dtrem.2⟩ db with
         | some off => RRes.ok ⟨dtrem.1, off⟩
         | none => RRes.panicked) := by
  rw [parse_datetime]
  exact parseDatetimeGo_firstParse s.data db

/-- C5: round trip — parsing a string in the canonical offset-qualified
RFC 3339 shape succeeds (through the 'T' pattern and the numeric offset
scan, independently of the database) and `to_rfc3339` reproduces the
input byte for byte. -/
theorem c5_rfc3339_roundtrip (today : DateYMD) (db : List (String × Tz))
    (dt : NaiveDT) (neg : Bool) (oh om : Nat)
    (hv : validFields dt = true) (hy0 : 0 ≤ dt.y) (hy : dt.y ≤ 9999)
    (hoh : oh ≤ 23) (hom : om ≤ 59) (hnz : neg = true → ¬(oh = 0 ∧ om = 0)) :
    parse today ⟨dtTChars dt ++ offTokChars neg oh om⟩ db =
      RRes.ok ⟨dt, offVal neg oh om⟩ ∧
    to_rfc3339 ⟨dt, offVal neg oh om⟩ = ⟨dtTChars dt ++ offTokChars neg oh om⟩ := by
  have hdata : (⟨dtTChars dt ++ offTokChars neg oh om⟩ : String).data =
      dtTChars dt ++ offTokChars neg oh om := rfl
  constructor
  · rw [parse, hdata, timeMatches_dtT dt _ hy0 hy, if_neg Bool.false_ne_true,
      parse_datetime, hdata, parseDatetimeGo_firstParse]
    simp only [firstParse, FORMATS,
      parseAndRemainder_fmtSpace_T_fails dt _ hv hy0 hy,
      parseAndRemainder_dtT dt _ hv hy0 hy,
      trimBoth_offTok neg hom,
      parse_timezone_offTok dt neg db hv hy0 hy hoh hom]
  · rw [to_rfc3339, offCharsOf_offVal neg hoh hom hnz]

/-- C5 witness: the example string "2023-10-22T10:34:16+01:00" round trips
byte for byte. -/
theorem c5_rfc3339_roundtrip_witness :
    parse today0 "2023-10-22T10:34:16+01:00" dbC = RRes.ok ⟨dt0, 3600⟩ ∧
    to_rfc3339 ⟨dt0, 3600⟩ = "2023-10-22T10:34:16+01:00" := by
  have h := c5_rfc3339_roundtrip today0 dbC dt0 false 1 0 (by decide) (by decide)
    (by decide) (by omega) (by omega) (fun hc => absurd hc (by decide))
  have hs : (⟨dtTChars dt0 ++ offTokChars false 1 0⟩ : String) =
      "2023-10-22T10:34:16+01:00" := by decide
  have hval : offVal false 1 0 = 3600 := by decide
  constructor
  · rw [← hs, ← hval]
    exact h.1
  · rw [← hs, ← hval]
    exact h.2

/-- C6: for an input of date, time and a trailing abbreviation token that
the four syntactic formats reject and whose lowercase form is a key of
the timezone database, `parse` succeeds and the offset is the mapped
zone's offset in effect at the reference instant (for
"2023-10-22 10:34:16 jst" this gives +09:00 — the witness). -/
theorem c6_abbrev_offset (today : DateYMD) (db : List (String × Tz))
    (dt : NaiveDT) (tok : List Char) (tz : Tz)
    (hv : validFields dt = true) (hy0 : 0 ≤ dt.y) (hy : dt.y ≤ 9999)
    (hts : trimStart tok = tok) (hte : trimEnd tok = tok)
    (hsyn : tryTzFormats (dtSpaceChars dt) (tok.map toUpperC) tzFormatKinds = none)
    (hdb : dbLookup db (strToLower ⟨tok⟩) = some tz) :
    parse today ⟨dtSpaceChars dt ++ ' ' :: tok⟩ db =
      RRes.ok ⟨dt, tz.offsetAt dt.absUtc⟩ := by
  rw [parse_space_token today db dt tok hv hy0 hy hts hte]
  have hdata : (⟨tok⟩ : String).data = tok := rfl
  rw [parse_timezone, hdata, hsyn]
  simp only [hdb]

/-- C6 witness: "2023-10-22 10:34:16 jst" resolves through the database to
Asia/Tokyo and the parse returns the instant at offset +09:00. -/
theorem c6_abbrev_offset_witness :
    (⟨dtSpaceChars dt0 ++ ' ' :: ['j', 's', 't']⟩ : String) =
      "2023-10-22 10:34:16 jst" ∧
    parse today0 "2023-10-22 10:34:16 jst" dbC = RRes.ok ⟨dt0, 32400⟩ := by
  have h := c6_abbrev_offset today0 dbC dt0 ['j', 's', 't'] tzTokyo (by decide)
    (by decide) (by decide) (by decide) (by decide) (by decide) rfl
  have hs : (⟨dtSpaceChars dt0 ++ ' ' :: ['j', 's', 't']⟩ : String) =
      "2023-10-22 10:34:16 jst" := by decide
  refine ⟨hs, ?_⟩
  rw [← hs]
  exact h

/-- C7: the resolver's four syntactic attempts run first and their outcome
does not depend on the timezone database — a token they resolve (such as
a numeric offset) never reaches the abbreviation lookup — and only when
all four attempts fail does `parse_timezone` consult the database. -/
theorem c7_numeric_before_db (dt : NaiveDT) (token : String) :
    (∀ off : Int,
        tryTzFormats (dtSpaceChars dt) (token.data.map toUpperC) tzFormatKinds =
          some off →
        ∀ db : List (String × Tz), parse_timezone dt token db = some off) ∧
    (tryTzFormats (dtSpaceChars dt) (token.data.map toUpperC) tzFormatKinds = none →
        ∀ db : List (String × Tz),
          parse_timezone dt token db =
            (dbLookup db (strToLower token)).map (fun tz => tz.offsetAt dt.absUtc)) := by
  constructor
  · intro off h db
    rw [parse_timezone, h]
  · intro h db
    rw [parse_timezone, h]
    cases dbLookup db (strToLower token) <;> rfl

/-- C7 witness: "+09:00" resolves syntactically to +09:00 against the
concrete database and against the empty database alike. -/
theorem c7_numeric_before_db_witness :
    parse_timezone dt0 "+09:00" dbC = some 32400 ∧
    parse_timezone dt0 "+09:00" [] = some 32400 := by
  have h := (c7_numeric_before_db dt0 "+09:00").1 32400 (by decide)
  exact ⟨h dbC, h []⟩

/-- C8: an unknown destination timezone (lowercased token absent from the
database) makes `main` exit with status 1 and a message naming the
offending token, whatever the datetime argument is — the datetime is
never parsed, as the result is the same even for datetime arguments whose
parse would panic. -/
theorem c8_unknown_dest_exits (args : Args) (catalog : List Tz) (now : Int)
    (today : DateYMD)
    (h : dbLookup (build_timezone_db catalog now) (strToLower args.dest_tz) = none) :
    main args catalog now today =
      MainResult.exited 1 ("Destination timezone " ++ args.dest_tz ++
        " could not be found in the timezone database") := by
  simp only [main, h]

/-- C8 witness: destination token "notazone" exits with status 1 even
though the datetime argument is one whose parse would panic — so parsing
is never attempted. -/
theorem c8_unknown_dest_exits_witness :
    main ⟨"2023-10-22 10:34:16", "notazone", false⟩ catalogC now0 today0 =
      MainResult.exited 1 ("Destination timezone " ++ "notazone" ++
        " could not be found in the timezone database") :=
  c8_unknown_dest_exits ⟨"2023-10-22 10:34:16", "notazone", false⟩ catalogC now0
    today0 rfl

/-- C9: `convert` is a total pure projection: for every fixed-offset
instant and every zone it returns a value in that zone denoting the same
absolute instant, and converting an instant already expressed in UTC
(offset 0) to UTC yields the input instant's absolute value. -/
theorem c9_convert_pure (d : DateTimeFO) (tz : Tz) :
    (convert d tz).abs = d.abs ∧ (convert d tz).tz = tz ∧
    (d.off = 0 → (convert d tzUTC).abs = d.dt.absUtc) := by
  refine ⟨rfl, rfl, fun h0 => ?_⟩
  simp [convert, DateTimeFO.abs, h0]

/-- C9 witness: UTC to UTC preserves the absolute value at a concrete
instant. -/
theorem c9_convert_pure_witness :
    (convert ⟨dt0, 0⟩ tzUTC).abs = dt0.absUtc :=
  (c9_convert_pure ⟨dt0, 0⟩ tzUTC).2.2 rfl

/-- C10: attaching a fixed offset to a naive datetime always yields the
unique `Single` local result — chrono's local-to-absolute mapping for a
`FixedOffset` is single-valued — so the `.unwrap()` on
`and_local_timezone` in `parse_datetime` can never panic. -/
theorem c10_and_local_timezone_single (ndt : NaiveDT) (off : Int) :
    and_local_timezone ndt off = LocalResult.single ⟨ndt, off⟩ := rfl

end Dtc
